import Mathlib

/-!
Verification of the Milki-backend structure service: routers
(`src/structure/routers/work/work.routes.js`, the zone router, the group
router) and the `WeeklyTask` Sequelize model
(`src/structure/models/weeklyTask.js`), together with the weekly-task
store operations described by the specification where the controller
sources are absent.
-/

namespace Milki

/-- HTTP verbs used by the routers. -/
inductive Verb
  | GET
  | POST
  | PUT
  | DELETE
deriving DecidableEq, Repr

/-- A segment of an Express route pattern: a literal piece or a `:name`
parameter, which matches any single path segment. -/
inductive Seg
  | lit (s : String)
  | param (name : String)
deriving DecidableEq, Repr

/-- One element of an Express middleware chain: a `checkPermission(p)` call,
a validation middleware, or the terminal controller function. -/
inductive Middleware
  | permCheck (perm : String)
  | validation (vname : String)
  | controller (cname : String)
deriving DecidableEq, Repr

/-- A registered route: verb, path pattern, middleware chain in
registration order. -/
structure Route where
  verb : Verb
  pattern : List Seg
  chain : List Middleware
deriving DecidableEq, Repr

/-- `router.get("/weeklyTask/:weekly_task_id", checkPermission("can_view_weeklyTask"), getWeeklyTaskById)`
(work.routes.js line 282). -/
def wtByTaskIdRoute : Route :=
  { verb := .GET
    pattern := [.lit "weeklyTask", .param "weekly_task_id"]
    chain := [.permCheck "can_view_weeklyTask", .controller "getWeeklyTaskById"] }

/-- `router.get("/weeklyTask/:workId", checkPermission("can_view_weeklyTask"), getWeeklyTask)`
(work.routes.js line 306). -/
def wtByWorkIdRoute : Route :=
  { verb := .GET
    pattern := [.lit "weeklyTask", .param "workId"]
    chain := [.permCheck "can_view_weeklyTask", .controller "getWeeklyTask"] }

/-- `router.put("/weeklyTask/:weekly_task_id", checkPermission("can_update_weeklyTask"), updateWeaklyTaskValidation, updateWeeklyTask)`
(work.routes.js line 330). -/
def wtUpdateRoute : Route :=
  { verb := .PUT
    pattern := [.lit "weeklyTask", .param "weekly_task_id"]
    chain := [.permCheck "can_update_weeklyTask", .validation "updateWeaklyTaskValidation",
              .controller "updateWeeklyTask"] }

/-- The first eight registrations of `work.routes.js` (lines 79-258),
in registration order. -/
def workRoutesHead : List Route :=
  [ { verb := .POST, pattern := [.lit "create"]
      chain := [.permCheck "can_create_work", .validation "createWorkValidation",
                .controller "create"] }
  , { verb := .GET, pattern := [.lit "get"]
      chain := [.permCheck "can_view_zone_admin", .controller "findAll"] }
  , { verb := .GET, pattern := [.lit "get", .param "workId"]
      chain := [.permCheck "can_view_work", .controller "findOne"] }
  , { verb := .DELETE, pattern := [.param "workId"]
      chain := [.permCheck "can_delete_zone_admin", .controller "deleteOne"] }
  , { verb := .POST, pattern := [.lit "assign", .param "workId"]
      chain := [.permCheck "can_update_work", .controller "assignWorkToSector"] }
  , { verb := .GET, pattern := [.lit "getByUserId"]
      chain := [.permCheck "can_view_work", .controller "getWorkByUserId"] }
  , { verb := .POST, pattern := [.lit "pickWork"]
      chain := [.permCheck "can_update_work", .controller "pickWork"] }
  , { verb := .POST, pattern := [.lit "weeklyTask"]
      chain := [.permCheck "can_create_weeklyTask", .controller "createWeaklyTask"] } ]

/-- All eleven registrations of `work.routes.js`, in registration order
(the weekly-task GET by task id at line 282 precedes the weekly-task GET
by work id at line 306). -/
def workRoutes : List Route :=
  workRoutesHead ++ [wtByTaskIdRoute, wtByWorkIdRoute, wtUpdateRoute]

/-- The zone router registrations (`src/unnamed/part_000`), in order. -/
def zoneRoutes : List Route :=
  [ { verb := .POST, pattern := [.lit "create"]
      chain := [.permCheck "can_create_zone_admin", .validation "createZoneAdminValidation",
                .controller "create"] }
  , { verb := .GET, pattern := [.lit "get"]
      chain := [.permCheck "can_view_zone_admin", .controller "findAll"] }
  , { verb := .GET, pattern := [.lit "get", .param "zone_user_id"]
      chain := [.permCheck "can_view_zone_admin", .controller "findOne"] }
  , { verb := .DELETE, pattern := [.param "zone_user_id"]
      chain := [.permCheck "can_delete_zone_admin", .controller "deleteOne"] } ]

/-- The group router registrations (group router source, after the
WeeklyTask model in `src/structure/models/weeklyTask.js`), in order; the
delete registration is commented out in the source and hence absent. -/
def groupRoutes : List Route :=
  [ { verb := .POST, pattern := [.lit "create"]
      chain := [.permCheck "can_create_group", .validation "createGroupValidation",
                .controller "create"] }
  , { verb := .GET, pattern := [.lit "get"]
      chain := [.permCheck "can_view_group", .controller "findAll"] }
  , { verb := .GET, pattern := [.lit "get", .param "group_id"]
      chain := [.permCheck "can_view_sector", .controller "findOne"] } ]

/-- Does a pattern segment match one concrete path segment?  A literal
matches only itself; a `:param` matches anything. -/
def Seg.matchSeg : Seg → String → Bool
  | .lit s, t => s == t
  | .param _, _ => true

/-- Express path matching: patterns match paths of the same length,
segment by segment. -/
def patMatches : List Seg → List String → Bool
  | [], [] => true
  | s :: ps, t :: ts => s.matchSeg t && patMatches ps ts
  | _, _ => false

/-- Express dispatch: the first registered route whose verb and pattern
match the request wins. -/
def dispatch (routes : List Route) (v : Verb) (path : List String) : Option Route :=
  routes.find? (fun r => r.verb == v && patMatches r.pattern path)

/-- Modelled from the spec: the top-level app wiring that mounts each
router under its `/structure/...` path is not under `src/` (only the
routers themselves are); the mount points are taken from the spec's
resource table paths `/structure/work`, `/structure/zone`,
`/structure/group`. -/
def mountAt (mount : List Seg) (rs : List Route) : List Route :=
  rs.map (fun r => { r with pattern := mount ++ r.pattern })

/-- The full registered route surface of the app. -/
def appRoutes : List Route :=
  mountAt [.lit "structure", .lit "work"] workRoutes ++
  mountAt [.lit "structure", .lit "zone"] zoneRoutes ++
  mountAt [.lit "structure", .lit "group"] groupRoutes

/-- The spec's HTTP resource table (section 6): verb, full path,
required permission string. -/
def specTable : List (Verb × List Seg × String) :=
  [ (.POST, [.lit "structure", .lit "work", .lit "create"], "can_create_work")
  , (.GET, [.lit "structure", .lit "work", .lit "get"], "can_view_zone_admin")
  , (.GET, [.lit "structure", .lit "work", .lit "get", .param "workId"], "can_view_work")
  , (.DELETE, [.lit "structure", .lit "work", .param "workId"], "can_delete_zone_admin")
  , (.POST, [.lit "structure", .lit "work", .lit "assign", .param "workId"], "can_update_work")
  , (.GET, [.lit "structure", .lit "work", .lit "getByUserId"], "can_view_work")
  , (.POST, [.lit "structure", .lit "work", .lit "pickWork"], "can_update_work")
  , (.POST, [.lit "structure", .lit "work", .lit "weeklyTask"], "can_create_weeklyTask")
  , (.GET, [.lit "structure", .lit "work", .lit "weeklyTask", .param "weekly_task_id"], "can_view_weeklyTask")
  , (.GET, [.lit "structure", .lit "work", .lit "weeklyTask", .param "workId"], "can_view_weeklyTask")
  , (.PUT, [.lit "structure", .lit "work", .lit "weeklyTask", .param "weekly_task_id"], "can_update_weeklyTask")
  , (.POST, [.lit "structure", .lit "zone", .lit "create"], "can_create_zone_admin")
  , (.GET, [.lit "structure", .lit "zone", .lit "get"], "can_view_zone_admin")
  , (.GET, [.lit "structure", .lit "zone", .lit "get", .param "zone_user_id"], "can_view_zone_admin")
  , (.DELETE, [.lit "structure", .lit "zone", .param "zone_user_id"], "can_delete_zone_admin")
  , (.POST, [.lit "structure", .lit "group", .lit "create"], "can_create_group")
  , (.GET, [.lit "structure", .lit "group", .lit "get"], "can_view_group")
  , (.GET, [.lit "structure", .lit "group", .lit "get", .param "group_id"], "can_view_sector") ]

/-- The permission strings a middleware chain checks, in order. -/
def chainPerms (c : List Middleware) : List String :=
  c.filterMap (fun m => match m with
    | .permCheck p => some p
    | _ => none)

/-- The controller names a middleware chain ends in. -/
def chainCtrls (c : List Middleware) : List String :=
  c.filterMap (fun m => match m with
    | .controller n => some n
    | _ => none)

/-- Does a `permCheck` middleware run strictly before the first
controller of the chain? -/
def permBeforeCtrl : List Middleware → Bool
  | [] => false
  | .permCheck _ :: _ => true
  | .controller _ :: _ => false
  | .validation _ :: rest => permBeforeCtrl rest

/-- The route is gated by exactly the permission `p`: its chain checks
the single permission `p`, it has a controller, and the permission check
runs before the controller. -/
def gatedBy (r : Route) (p : String) : Bool :=
  chainPerms r.chain == [p] && !(chainCtrls r.chain).isEmpty && permBeforeCtrl r.chain

/-- One row of the spec table is honoured: a route with that verb and
pattern is registered, and the first such registration is gated by
exactly the listed permission. -/
def tableRowOk (e : Verb × List Seg × String) : Bool :=
  match appRoutes.find? (fun r => r.verb == e.1 && r.pattern == e.2.1) with
  | some r => gatedBy r e.2.2
  | none => false

/-- The work router with the shadowed weekly-task-by-work-id
registration (line 306) removed. -/
def workRoutesDeduped : List Route :=
  workRoutesHead ++ [wtByTaskIdRoute, wtUpdateRoute]

/-- Column types used by the WeeklyTask model definition
(`DataTypes.UUID`, `Sequelize.STRING`, `Sequelize.INTEGER`,
`Sequelize.DATE`). -/
inductive ColType
  | uuid
  | str
  | integer
  | date
deriving DecidableEq, Repr

/-- One column of a Sequelize table definition. -/
structure Column where
  colName : String
  ctype : ColType
  allowNull : Bool
  hasDefault : Bool
  primaryKey : Bool
deriving DecidableEq, Repr

/-- The WeeklyTask table schema, column by column from
`src/structure/models/weeklyTask.js` (fields: name, type, allowNull,
has a default value, primary key). -/
def weeklyTaskColumns : List Column :=
  [ ⟨"weekly_task_id", .uuid, false, true, true⟩
  , ⟨"description", .str, false, false, false⟩
  , ⟨"status", .str, false, true, false⟩
  , ⟨"workId", .uuid, false, false, false⟩
  , ⟨"weekNumber", .integer, false, false, false⟩
  , ⟨"sectorId", .integer, false, false, false⟩
  , ⟨"pickedBy", .uuid, true, false, false⟩
  , ⟨"createdAt", .date, false, true, false⟩
  , ⟨"updatedAt", .date, false, true, false⟩ ]

/-- A runtime value arriving in a creation payload. -/
inductive Value
  | vNull
  | vStr (s : String)
  | vInt (n : Int)
  | vUuid (s : String)
  | vDate (t : Nat)
deriving DecidableEq, Repr

/-- Does a column accept a value as-is (no coercion)?  `NULL` requires
`allowNull`; otherwise the value's kind must match the column type. -/
def colAccepts (c : Column) : Value → Bool
  | .vNull => c.allowNull
  | .vStr _ => c.ctype == .str
  | .vInt _ => c.ctype == .integer
  | .vUuid _ => c.ctype == .uuid
  | .vDate _ => c.ctype == .date

/-- A persisted WeeklyTask row, one field per column of the model in
`src/structure/models/weeklyTask.js`.  UUIDs drawn from the
`UUIDV4` default generator are modelled as values of an abstract fresh
supply (a counter); `pickedBy` is the one nullable field. -/
structure WeeklyTaskRow where
  weekly_task_id : Nat
  description : String
  status : String
  workId : String
  weekNumber : Int
  sectorId : Int
  pickedBy : Option String
  createdAt : Nat
  updatedAt : Nat
deriving DecidableEq, Repr

/-- The WeeklyTask table together with the fresh-id supply of the
`UUIDV4` default generator. -/
structure Store where
  tasks : List WeeklyTaskRow
  fresh : Nat
deriving DecidableEq, Repr

/-- A freshly created row: status `unassigned` (the model's default),
`pickedBy` null, timestamps set to creation time (the model's `NOW`
defaults). -/
def mkRow (id : Nat) (d w : String) (wn sid : Int) (t : Nat) : WeeklyTaskRow :=
  ⟨id, d, "unassigned", w, wn, sid, none, t, t⟩

/-- Insert one freshly created row, consuming one fresh id. -/
def insertWeeklyTask (s : Store) (d w : String) (wn sid : Int) (t : Nat) : Store :=
  { tasks := s.tasks ++ [mkRow s.fresh d w wn sid t], fresh := s.fresh + 1 }

/-- Modelled from the spec: the work controller's `createWeaklyTask` is
not under `src/` (only its route registration at work.routes.js line 258
is).  From the spec: "`createWeeklyTask(workId, sectorIds, weekNumber)`:
for each sector, creates a WeeklyTask row scoped to that sector/week,
initial status `unassigned`, `pickedBy` null"; the row shape and
defaults are those of the WeeklyTask model. -/
def createWeeklyTask (s : Store) (w : String) (sectorIds : List Int) (wn : Int)
    (d : String) (t : Nat) : Store :=
  match sectorIds with
  | [] => s
  | sid :: rest => createWeeklyTask (insertWeeklyTask s d w wn sid t) w rest wn d t

/-- The batch of rows a `createWeeklyTask` call appends, given the value
of the fresh-id supply at call time. -/
def newRows (base : Nat) (w : String) (sectorIds : List Int) (wn : Int)
    (d : String) (t : Nat) : List WeeklyTaskRow :=
  match sectorIds with
  | [] => []
  | sid :: rest => mkRow base d w wn sid t :: newRows (base + 1) w rest wn d t

/-- The ids of all persisted weekly tasks. -/
def idsOf (s : Store) : List Nat := s.tasks.map (fun r => r.weekly_task_id)

/-- The fresh-supply invariant: all persisted ids are pairwise distinct
and below the supply counter. -/
def FreshInv (s : Store) : Prop :=
  (idsOf s).Nodup ∧ ∀ i ∈ idsOf s, i < s.fresh

/-- A row after a successful claim: `pickedBy` records the claiming
user and the status moves away from `unassigned`. -/
def pickRow (u : String) (r : WeeklyTaskRow) : WeeklyTaskRow :=
  { r with pickedBy := some u, status := "picked" }

/-- The conditional-update predicate of the claim: the row has the
requested task id and is still unclaimed (`pickedBy IS NULL`). -/
def pickHit (tid : Nat) (r : WeeklyTaskRow) : Bool :=
  r.weekly_task_id == tid && r.pickedBy == none

/-- Modelled from the spec: the work controller's `pickWork` is not
under `src/` (only its route registration at work.routes.js line 222
is).  From the spec: an atomic conditional update — "update WeeklyTask
set pickedBy=X, status=Y where id=Z and pickedBy is null" — succeeding
iff the affected-row count is positive. -/
def pickWork (s : Store) (tid : Nat) (u : String) : Store × Bool :=
  ({ s with tasks := s.tasks.map (fun r => if pickHit tid r then pickRow u r else r) },
   s.tasks.any (pickHit tid))

/-- Lookup of a weekly task by its id. -/
def findRow (s : Store) (tid : Nat) : Option WeeklyTaskRow :=
  s.tasks.find? (fun r => r.weekly_task_id == tid)

/-- A persisted Work row (the fields the Work claims need). -/
structure WorkRow where
  work_id : String
  description : String
  status : String
deriving DecidableEq, Repr

/-- The HTTP outcome of the delete controller: a 200 success or a 404
NotFound error. -/
inductive DeleteOutcome
  | success200
  | notFound404
deriving DecidableEq, Repr

/-- Modelled from the spec: the work controller's `deleteOne` is not
under `src/` (only its route registration at work.routes.js line 142
is).  From the spec: "deleting a non-existent `workId` returns NotFound,
not a 200"; on an existing id the row is removed with a 200. -/
def deleteOne (works : List WorkRow) (wid : String) : DeleteOutcome × List WorkRow :=
  if works.any (fun w => w.work_id == wid) then
    (.success200, works.filter (fun w => !(w.work_id == wid)))
  else
    (.notFound404, works)

/-- Modelled from the spec: the work controller's `findOne` is not under
`src/` (only its route registration at work.routes.js line 118 is).
From the spec: a read-only lookup of a Work by id, returning the row and
leaving the store as it was. -/
def findOne (works : List WorkRow) (wid : String) : Option WorkRow × List WorkRow :=
  (works.find? (fun w => w.work_id == wid), works)

/-- `createWeeklyTask` appends exactly the batch `newRows`. -/
theorem createWeeklyTask_tasks (sectorIds : List Int) (s : Store) (w : String) (wn : Int)
    (d : String) (t : Nat) :
    (createWeeklyTask s w sectorIds wn d t).tasks
      = s.tasks ++ newRows s.fresh w sectorIds wn d t := by
  induction sectorIds generalizing s with
  | nil => simp [createWeeklyTask, newRows]
  | cons sid rest ih =>
    simp [createWeeklyTask, newRows, ih, insertWeeklyTask]

/-- `createWeeklyTask` consumes one fresh id per sector. -/
theorem createWeeklyTask_fresh (sectorIds : List Int) (s : Store) (w : String) (wn : Int)
    (d : String) (t : Nat) :
    (createWeeklyTask s w sectorIds wn d t).fresh = s.fresh + sectorIds.length := by
  induction sectorIds generalizing s with
  | nil => simp [createWeeklyTask]
  | cons sid rest ih =>
    simp [createWeeklyTask, ih, insertWeeklyTask]
    omega

/-- The batch has one row per sector id. -/
theorem newRows_length (base : Nat) (w : String) (sectorIds : List Int) (wn : Int)
    (d : String) (t : Nat) :
    (newRows base w sectorIds wn d t).length = sectorIds.length := by
  induction sectorIds generalizing base with
  | nil => rfl
  | cons sid rest ih => simp [newRows, ih]

/-- The batch's sector ids are exactly the requested ones, in order. -/
theorem newRows_map_sector (base : Nat) (w : String) (sectorIds : List Int) (wn : Int)
    (d : String) (t : Nat) :
    (newRows base w sectorIds wn d t).map (fun r => r.sectorId) = sectorIds := by
  induction sectorIds generalizing base with
  | nil => rfl
  | cons sid rest ih => simp [newRows, mkRow, ih]

/-- Every row of the batch is unassigned, unpicked, and scoped to the
requested work and week. -/
theorem newRows_fields (base : Nat) (w : String) (sectorIds : List Int) (wn : Int)
    (d : String) (t : Nat) :
    ((newRows base w sectorIds wn d t).all fun r =>
      r.status == "unassigned" && r.pickedBy == none
        && r.workId == w && r.weekNumber == wn) = true := by
  induction sectorIds generalizing base with
  | nil => rfl
  | cons sid rest ih => simp [newRows, mkRow, ih]

/-- The batch's ids are the consecutive fresh ids starting at `base`. -/
theorem newRows_map_id (base : Nat) (w : String) (sectorIds : List Int) (wn : Int)
    (d : String) (t : Nat) :
    (newRows base w sectorIds wn d t).map (fun r => r.weekly_task_id)
      = List.range' base sectorIds.length := by
  induction sectorIds generalizing base with
  | nil => rfl
  | cons sid rest ih => simp [newRows, mkRow, ih, List.range'_succ]

/-- Claim C1: a `createWeeklyTask` call with N sector ids creates
exactly N WeeklyTask rows, one per sector id in order, each with status
`unassigned` and `pickedBy` null (scoped to the given work and week). -/
theorem createWeeklyTask_creates_n_rows (s : Store) (w : String) (sectorIds : List Int)
    (wn : Int) (d : String) (t : Nat) :
    (createWeeklyTask s w sectorIds wn d t).tasks.length
        = s.tasks.length + sectorIds.length ∧
    ((createWeeklyTask s w sectorIds wn d t).tasks.drop s.tasks.length).map
        (fun r => r.sectorId) = sectorIds ∧
    (((createWeeklyTask s w sectorIds wn d t).tasks.drop s.tasks.length).all fun r =>
      r.status == "unassigned" && r.pickedBy == none
        && r.workId == w && r.weekNumber == wn) = true := by
  refine ⟨?_, ?_, ?_⟩ <;>
    rw [createWeeklyTask_tasks]
  · rw [List.length_append, newRows_length]
  · rw [List.drop_left, newRows_map_sector]
  · rw [List.drop_left, newRows_fields]

/-- Claim C7: ids are generated at creation from the fresh supply and
stay globally unique — after any `createWeeklyTask` call on a store
satisfying the fresh-supply invariant, all weekly-task ids are still
pairwise distinct (each new row's id differs from every other row's),
and the invariant still holds. -/
theorem createWeeklyTask_ids_unique (s : Store) (w : String) (sectorIds : List Int)
    (wn : Int) (d : String) (t : Nat) (h : FreshInv s) :
    (idsOf (createWeeklyTask s w sectorIds wn d t)).Nodup ∧
    FreshInv (createWeeklyTask s w sectorIds wn d t) := by
  have hids : idsOf (createWeeklyTask s w sectorIds wn d t)
      = idsOf s ++ List.range' s.fresh sectorIds.length := by
    rw [idsOf, createWeeklyTask_tasks, List.map_append, newRows_map_id]
    rfl
  have hnd : (idsOf s ++ List.range' s.fresh sectorIds.length).Nodup := by
    refine List.Nodup.append h.1 (List.nodup_range' _ _) ?_
    intro a ha hb
    have h1 : a < s.fresh := h.2 a ha
    have h2 : s.fresh ≤ a := by
      rcases List.mem_range'.mp hb with ⟨i, hi, rfl⟩
      omega
    omega
  refine ⟨hids ▸ hnd, hids ▸ hnd, ?_⟩
  intro i hi
  rw [hids] at hi
  rw [createWeeklyTask_fresh]
  rcases List.mem_append.mp hi with hold | hnew
  · have := h.2 i hold
    omega
  · rcases List.mem_range'.mp hnew with ⟨k, hk, rfl⟩
    omega

/-- Claim C4: every verb+path row of the spec's HTTP resource table is
registered by the routers gated by exactly the listed permission string,
and in each such registration the permission check runs before the
controller. -/
theorem routes_gated_as_listed : Milki.specTable.all Milki.tableRowOk = true := by
  decide

/-- Claim C5: the group router exposes exactly three operations —
create, list all, get by id — and registers no update (PUT) and no
delete (DELETE) route. -/
theorem group_router_three_ops :
    Milki.groupRoutes.length = 3 ∧
    (Milki.groupRoutes.find? (fun r => r.verb == Verb.POST && r.pattern == [Seg.lit "create"])).any
      (fun r => chainCtrls r.chain == ["create"]) = true ∧
    (Milki.groupRoutes.find? (fun r => r.verb == Verb.GET && r.pattern == [Seg.lit "get"])).any
      (fun r => chainCtrls r.chain == ["findAll"]) = true ∧
    (Milki.groupRoutes.find? (fun r => r.verb == Verb.GET &&
        r.pattern == [Seg.lit "get", Seg.param "group_id"])).any
      (fun r => chainCtrls r.chain == ["findOne"]) = true ∧
    (Milki.groupRoutes.all fun r => !(r.verb == Verb.DELETE) && !(r.verb == Verb.PUT)) = true := by
  refine ⟨by decide, by decide, by decide, by decide, by decide⟩

/-- The two weekly-task GET patterns (`:weekly_task_id` vs `:workId`)
match exactly the same request paths. -/
theorem patMatches_wt_eq (path : List String) :
    patMatches wtByWorkIdRoute.pattern path = patMatches wtByTaskIdRoute.pattern path := by
  cases path with
  | nil => rfl
  | cons a t =>
    cases t with
    | nil => rfl
    | cons b t2 => cases t2 <;> rfl

/-- Dispatch over an appended route list tries the left part first. -/
theorem dispatch_append (l1 l2 : List Route) (v : Verb) (path : List String) :
    dispatch (l1 ++ l2) v path = (dispatch l1 v path).or (dispatch l2 v path) := by
  simp [dispatch]

/-- Claim C9: every GET request of shape `/weeklyTask/:x` dispatches to
the `getWeeklyTaskById` registration (work.routes.js line 282), and
removing the later `getWeeklyTask` registration (line 306) changes the
dispatch of no request at all: that route is unreachable. -/
theorem getWeeklyTask_route_shadowed :
    (∀ x : String, dispatch workRoutes Verb.GET ["weeklyTask", x] = some wtByTaskIdRoute) ∧
    (∀ (v : Verb) (path : List String),
      dispatch workRoutes v path = dispatch workRoutesDeduped v path) := by
  constructor
  · intro x
    rfl
  · intro v path
    show dispatch (workRoutesHead ++ [wtByTaskIdRoute, wtByWorkIdRoute, wtUpdateRoute]) v path
       = dispatch (workRoutesHead ++ [wtByTaskIdRoute, wtUpdateRoute]) v path
    rw [dispatch_append, dispatch_append]
    have h10 : (wtByWorkIdRoute.verb == v && patMatches wtByWorkIdRoute.pattern path)
             = (wtByTaskIdRoute.verb == v && patMatches wtByTaskIdRoute.pattern path) := by
      rw [patMatches_wt_eq]
      rfl
    cases h9 : (wtByTaskIdRoute.verb == v && patMatches wtByTaskIdRoute.pattern path) with
    | true => simp [dispatch, List.find?, h9, h10 ▸ h9]
    | false => simp [dispatch, List.find?, h9, h10 ▸ h9]

/-- Claim C10: in the WeeklyTask schema `pickedBy` is the only nullable
column; description, status, workId, weekNumber, sectorId, createdAt and
updatedAt are all non-null; weekNumber and sectorId are INTEGER columns,
so a string week number or a UUID-string sector id is not storable
as-is. -/
theorem weeklyTask_schema_nullability :
    (Milki.weeklyTaskColumns.all fun c => c.allowNull == (c.colName == "pickedBy")) = true ∧
    (["description", "status", "workId", "weekNumber", "sectorId", "createdAt", "updatedAt"].all
      fun n => (Milki.weeklyTaskColumns.find? (fun c => c.colName == n)).any
        (fun c => !c.allowNull)) = true ∧
    ((Milki.weeklyTaskColumns.find? (fun c => c.colName == "weekNumber")).any
      (fun c => c.ctype == ColType.integer)) = true ∧
    ((Milki.weeklyTaskColumns.find? (fun c => c.colName == "sectorId")).any
      (fun c => c.ctype == ColType.integer)) = true ∧
    (∀ s : String, ((Milki.weeklyTaskColumns.find? (fun c => c.colName == "sectorId")).any
      (fun c => colAccepts c (Value.vStr s))) = false) ∧
    (∀ s : String, ((Milki.weeklyTaskColumns.find? (fun c => c.colName == "weekNumber")).any
      (fun c => colAccepts c (Value.vStr s))) = false) := by
  refine ⟨by decide, by decide, by decide, by decide, fun s => rfl, fun s => rfl⟩

/-- Witness for `createWeeklyTask_ids_unique`: the empty store satisfies
the fresh-supply invariant, and creating three weekly tasks from it
yields pairwise-distinct ids. -/
theorem createWeeklyTask_ids_unique_witness :
    FreshInv ⟨[], 0⟩ ∧
    ((idsOf (createWeeklyTask ⟨[], 0⟩ "w" [1, 2, 3] 4 "d" 0)).Nodup ∧
      FreshInv (createWeeklyTask ⟨[], 0⟩ "w" [1, 2, 3] 4 "d" 0)) :=
  ⟨⟨by simp [idsOf], by simp [idsOf]⟩,
    createWeeklyTask_ids_unique ⟨[], 0⟩ "w" [1, 2, 3] 4 "d" 0
      ⟨by simp [idsOf], by simp [idsOf]⟩⟩

/-- Two persisted rows with the same id are the same row when all ids
are pairwise distinct. -/
theorem row_eq_of_id_eq {s : Store} {x y : WeeklyTaskRow} (hnd : (idsOf s).Nodup)
    (hx : x ∈ s.tasks) (hy : y ∈ s.tasks)
    (hxy : x.weekly_task_id = y.weekly_task_id) : x = y :=
  List.inj_on_of_nodup_map hnd hx hy hxy

/-- On a store holding an unclaimed row with the requested id, the
conditional update reports success. -/
theorem pickWork_flag_true {s : Store} {tid : Nat} {r : WeeklyTaskRow} (u : String)
    (hmem : r ∈ s.tasks) (hid : r.weekly_task_id = tid) (hun : r.pickedBy = none) :
    (pickWork s tid u).2 = true := by
  show s.tasks.any (pickHit tid) = true
  refine List.any_eq_true.mpr ⟨r, hmem, ?_⟩
  simp [pickHit, hid, hun]

/-- When the row with the requested id is already claimed, no row
satisfies the conditional-update predicate. -/
theorem pickHit_false_of_claimed {s : Store} {tid : Nat} {r : WeeklyTaskRow} {v : String}
    (hnd : (idsOf s).Nodup) (hmem : r ∈ s.tasks) (hid : r.weekly_task_id = tid)
    (hp : r.pickedBy = some v) :
    ∀ x ∈ s.tasks, pickHit tid x = false := by
  intro x hx
  cases hcond : pickHit tid x with
  | false => rfl
  | true =>
    exfalso
    rw [pickHit, Bool.and_eq_true] at hcond
    obtain ⟨h1, h2⟩ := hcond
    have hx_eq : x = r :=
      row_eq_of_id_eq hnd hx hmem (by rw [beq_iff_eq.mp h1, hid])
    rw [hx_eq, hp] at h2
    cases h2

/-- On a store whose row with the requested id is already claimed, the
conditional update reports failure. -/
theorem pickWork_flag_false {s : Store} {tid : Nat} {r : WeeklyTaskRow} (u : String)
    {v : String} (hnd : (idsOf s).Nodup) (hmem : r ∈ s.tasks)
    (hid : r.weekly_task_id = tid) (hp : r.pickedBy = some v) :
    (pickWork s tid u).2 = false := by
  show s.tasks.any (pickHit tid) = false
  refine List.any_eq_false.mpr ?_
  intro x hx hpx
  rw [pickHit_false_of_claimed hnd hmem hid hp x hx] at hpx
  cases hpx

/-- On a store whose row with the requested id is already claimed, the
conditional update modifies no row. -/
theorem pickWork_noop {s : Store} {tid : Nat} {r : WeeklyTaskRow} (u : String)
    {v : String} (hnd : (idsOf s).Nodup) (hmem : r ∈ s.tasks)
    (hid : r.weekly_task_id = tid) (hp : r.pickedBy = some v) :
    (pickWork s tid u).1 = s := by
  have h1 : ∀ x ∈ s.tasks,
      (if pickHit tid x then pickRow u x else x) = (fun x => x) x := by
    intro x hx
    rw [pickHit_false_of_claimed hnd hmem hid hp x hx]
    simp
  show ({ s with tasks := s.tasks.map fun x => if pickHit tid x then pickRow u x else x } : Store) = s
  rw [List.map_congr_left h1, List.map_id']

/-- The conditional update never changes a row's id. -/
theorem pickWork_ids (s : Store) (tid : Nat) (u : String) :
    idsOf (pickWork s tid u).1 = idsOf s := by
  show (s.tasks.map fun x => if pickHit tid x then pickRow u x else x).map
      (fun r => r.weekly_task_id) = s.tasks.map (fun r => r.weekly_task_id)
  rw [List.map_map]
  refine List.map_congr_left ?_
  intro x hx
  cases hcond : pickHit tid x <;> simp [Function.comp, hcond, pickRow]

/-- After a successful claim the updated row is in the store. -/
theorem pickRow_mem_after {s : Store} {tid : Nat} {r : WeeklyTaskRow} (u : String)
    (hmem : r ∈ s.tasks) (hid : r.weekly_task_id = tid) (hun : r.pickedBy = none) :
    pickRow u r ∈ (pickWork s tid u).1.tasks := by
  have hhit : pickHit tid r = true := by simp [pickHit, hid, hun]
  have hstep := List.mem_map_of_mem
    (fun x => if pickHit tid x then pickRow u x else x) hmem
  simp only [hhit, if_true] at hstep
  exact hstep

/-- After a successful claim, looking the task up by id finds exactly
the updated row. -/
theorem find_map_pick (l : List WeeklyTaskRow) (tid : Nat) (u : String)
    (r : WeeklyTaskRow) (hnd : (l.map fun x => x.weekly_task_id).Nodup)
    (hmem : r ∈ l) (hid : r.weekly_task_id = tid) (hun : r.pickedBy = none) :
    (l.map fun x => if pickHit tid x then pickRow u x else x).find?
        (fun x => x.weekly_task_id == tid) = some (pickRow u r) := by
  induction l with
  | nil => cases hmem
  | cons a as ih =>
    rw [List.map_cons] at hnd ⊢
    obtain ⟨hnotmem, hndtail⟩ := List.nodup_cons.mp hnd
    rcases List.mem_cons.mp hmem with rfl | hmem'
    · have hhit : pickHit tid r = true := by simp [pickHit, hid, hun]
      simp only [hhit, if_true]
      exact List.find?_cons_of_pos _ (by simp [pickRow, hid])
    · have ha : a.weekly_task_id ≠ tid := by
        intro hc
        apply hnotmem
        rw [hc, ← hid]
        exact List.mem_map_of_mem (fun x => x.weekly_task_id) hmem'
      have hnohit : pickHit tid a = false := by simp [pickHit, ha]
      simp only [hnohit, Bool.false_eq_true, if_false]
      rw [List.find?_cons_of_neg _ (by simp [ha])]
      exact ih hndtail hmem'

/-- Claim C2: on a store whose weekly-task row `r` carries the requested
id, `pickWork` succeeds iff `r.pickedBy` is null beforehand; on success
the task's row records the claiming user with a status away from
`unassigned`; on an already-claimed task it fails and leaves the store —
in particular `pickedBy` and `status` — untouched. -/
theorem pickWork_claim_contract (s : Store) (tid : Nat) (u : String)
    (r : WeeklyTaskRow) (hnd : (idsOf s).Nodup) (hmem : r ∈ s.tasks)
    (hid : r.weekly_task_id = tid) :
    ((pickWork s tid u).2 = true ↔ r.pickedBy = none) ∧
    (r.pickedBy = none →
      findRow (pickWork s tid u).1 tid = some (pickRow u r) ∧
      (pickRow u r).pickedBy = some u ∧ (pickRow u r).status ≠ "unassigned") ∧
    (∀ v : String, r.pickedBy = some v → (pickWork s tid u).1 = s) := by
  refine ⟨⟨?_, fun hun => pickWork_flag_true u hmem hid hun⟩, ?_, ?_⟩
  · intro htrue
    cases hpb : r.pickedBy with
    | none => rfl
    | some v =>
      rw [pickWork_flag_false u hnd hmem hid hpb] at htrue
      cases htrue
  · intro hun
    exact ⟨find_map_pick s.tasks tid u r hnd hmem hid hun, rfl, by simp [pickRow]⟩
  · intro v hpv
    exact pickWork_noop u hnd hmem hid hpv

/-- Witness for `pickWork_claim_contract` on a one-task store holding an
unclaimed task with id 1. -/
theorem pickWork_claim_contract_witness :
    ((idsOf ⟨[⟨1, "d", "unassigned", "w", 4, 2, none, 0, 0⟩], 5⟩).Nodup ∧
      (⟨1, "d", "unassigned", "w", 4, 2, none, 0, 0⟩ : WeeklyTaskRow)
        ∈ (⟨[⟨1, "d", "unassigned", "w", 4, 2, none, 0, 0⟩], 5⟩ : Store).tasks ∧
      (⟨1, "d", "unassigned", "w", 4, 2, none, 0, 0⟩ : WeeklyTaskRow).weekly_task_id = 1) ∧
    (((pickWork ⟨[⟨1, "d", "unassigned", "w", 4, 2, none, 0, 0⟩], 5⟩ 1 "u").2 = true
        ↔ (⟨1, "d", "unassigned", "w", 4, 2, none, 0, 0⟩ : WeeklyTaskRow).pickedBy = none) ∧
      ((⟨1, "d", "unassigned", "w", 4, 2, none, 0, 0⟩ : WeeklyTaskRow).pickedBy = none →
        findRow (pickWork ⟨[⟨1, "d", "unassigned", "w", 4, 2, none, 0, 0⟩], 5⟩ 1 "u").1 1
            = some (pickRow "u" ⟨1, "d", "unassigned", "w", 4, 2, none, 0, 0⟩) ∧
        (pickRow "u" ⟨1, "d", "unassigned", "w", 4, 2, none, 0, 0⟩).pickedBy = some "u" ∧
        (pickRow "u" ⟨1, "d", "unassigned", "w", 4, 2, none, 0, 0⟩).status ≠ "unassigned") ∧
      (∀ v : String,
        (⟨1, "d", "unassigned", "w", 4, 2, none, 0, 0⟩ : WeeklyTaskRow).pickedBy = some v →
        (pickWork ⟨[⟨1, "d", "unassigned", "w", 4, 2, none, 0, 0⟩], 5⟩ 1 "u").1
          = ⟨[⟨1, "d", "unassigned", "w", 4, 2, none, 0, 0⟩], 5⟩)) :=
  ⟨⟨by decide, by decide, rfl⟩,
    pickWork_claim_contract ⟨[⟨1, "d", "unassigned", "w", 4, 2, none, 0, 0⟩], 5⟩ 1 "u"
      ⟨1, "d", "unassigned", "w", 4, 2, none, 0, 0⟩ (by decide) (by decide) rfl⟩

/-- Claim C3: on an unclaimed task, two `pickWork` calls executed in
either serialization order (the atomic conditional updates serialize)
see exactly one success: the first claim succeeds, the second fails —
never both, never neither. -/
theorem pickWork_race_exactly_one (s : Store) (tid : Nat) (u1 u2 : String)
    (r : WeeklyTaskRow) (hnd : (idsOf s).Nodup) (hmem : r ∈ s.tasks)
    (hid : r.weekly_task_id = tid) (hun : r.pickedBy = none) :
    (pickWork s tid u1).2 = true ∧
    (pickWork (pickWork s tid u1).1 tid u2).2 = false := by
  refine ⟨pickWork_flag_true u1 hmem hid hun, ?_⟩
  have hnd1 : (idsOf (pickWork s tid u1).1).Nodup := by
    rw [pickWork_ids]
    exact hnd
  have hmem1 : pickRow u1 r ∈ (pickWork s tid u1).1.tasks :=
    pickRow_mem_after u1 hmem hid hun
  exact pickWork_flag_false u2 hnd1 hmem1 (by simpa [pickRow] using hid) rfl

/-- Witness for `pickWork_race_exactly_one` on a one-task store holding
an unclaimed task with id 1 and two pickers. -/
theorem pickWork_race_exactly_one_witness :
    ((idsOf ⟨[⟨1, "e", "unassigned", "w", 4, 2, none, 0, 0⟩], 5⟩).Nodup ∧
      (⟨1, "e", "unassigned", "w", 4, 2, none, 0, 0⟩ : WeeklyTaskRow)
        ∈ (⟨[⟨1, "e", "unassigned", "w", 4, 2, none, 0, 0⟩], 5⟩ : Store).tasks ∧
      (⟨1, "e", "unassigned", "w", 4, 2, none, 0, 0⟩ : WeeklyTaskRow).weekly_task_id = 1 ∧
      (⟨1, "e", "unassigned", "w", 4, 2, none, 0, 0⟩ : WeeklyTaskRow).pickedBy = none) ∧
    ((pickWork ⟨[⟨1, "e", "unassigned", "w", 4, 2, none, 0, 0⟩], 5⟩ 1 "alice").2 = true ∧
      (pickWork (pickWork ⟨[⟨1, "e", "unassigned", "w", 4, 2, none, 0, 0⟩], 5⟩ 1 "alice").1
          1 "bob").2 = false) :=
  ⟨⟨by decide, by decide, rfl, rfl⟩,
    pickWork_race_exactly_one ⟨[⟨1, "e", "unassigned", "w", 4, 2, none, 0, 0⟩], 5⟩ 1
      "alice" "bob" ⟨1, "e", "unassigned", "w", 4, 2, none, 0, 0⟩
      (by decide) (by decide) rfl rfl⟩

/-- Claim C6: a DELETE of a workId that references no existing Work
returns the NotFound error — not a 200 success — and removes nothing. -/
theorem deleteOne_missing_not_found (works : List WorkRow) (wid : String)
    (h : (works.all fun w => !(w.work_id == wid)) = true) :
    (deleteOne works wid).1 = DeleteOutcome.notFound404 ∧
    (deleteOne works wid).1 ≠ DeleteOutcome.success200 ∧
    (deleteOne works wid).2 = works := by
  have hany : (works.any fun w => w.work_id == wid) = false := by
    refine List.any_eq_false.mpr ?_
    intro x hx
    have := List.all_eq_true.mp h x hx
    simp at this
    simp [this]
  refine ⟨?_, ?_, ?_⟩ <;> simp [deleteOne, hany]

/-- Witness for `deleteOne_missing_not_found`: deleting id "b" from a
store holding only work "a". -/
theorem deleteOne_missing_not_found_witness :
    (([⟨"a", "x", "unassigned"⟩] : List WorkRow).all fun w => !(w.work_id == "b")) = true ∧
    ((deleteOne [⟨"a", "x", "unassigned"⟩] "b").1 = DeleteOutcome.notFound404 ∧
      (deleteOne [⟨"a", "x", "unassigned"⟩] "b").1 ≠ DeleteOutcome.success200 ∧
      (deleteOne [⟨"a", "x", "unassigned"⟩] "b").2 = [⟨"a", "x", "unassigned"⟩]) :=
  ⟨by decide, deleteOne_missing_not_found [⟨"a", "x", "unassigned"⟩] "b" (by decide)⟩

/-- Claim C8: two successive `findOne` lookups of an existing Work id
with no intervening write return identical records, and the lookup
leaves the store unchanged. -/
theorem findOne_idempotent (works : List WorkRow) (wid : String) (w : WorkRow)
    (hmem : w ∈ works) (hid : w.work_id = wid) :
    (findOne works wid).1 = (findOne (findOne works wid).2 wid).1 ∧
    (findOne works wid).2 = works ∧
    ∃ w1 : WorkRow, (findOne works wid).1 = some w1 := by
  refine ⟨rfl, rfl, ?_⟩
  have hsome : ((works.find? fun x => x.work_id == wid)).isSome :=
    List.find?_isSome.mpr ⟨w, hmem, by simp [hid]⟩
  exact Option.isSome_iff_exists.mp hsome

/-- Witness for `findOne_idempotent`: looking up id "a" in a store
holding work "a". -/
theorem findOne_idempotent_witness :
    ((⟨"a", "x", "unassigned"⟩ : WorkRow) ∈ ([⟨"a", "x", "unassigned"⟩] : List WorkRow) ∧
      (⟨"a", "x", "unassigned"⟩ : WorkRow).work_id = "a") ∧
    ((findOne [⟨"a", "x", "unassigned"⟩] "a").1
        = (findOne (findOne [⟨"a", "x", "unassigned"⟩] "a").2 "a").1 ∧
      (findOne [⟨"a", "x", "unassigned"⟩] "a").2 = [⟨"a", "x", "unassigned"⟩] ∧
      ∃ w1 : WorkRow, (findOne [⟨"a", "x", "unassigned"⟩] "a").1 = some w1) :=
  ⟨⟨by decide, rfl⟩,
    findOne_idempotent [⟨"a", "x", "unassigned"⟩] "a" ⟨"a", "x", "unassigned"⟩
      (by decide) rfl⟩

end Milki
